import Mathlib

/-!
Verification of `src/parquet-file-sizes/make-files.py`.

The script builds, for each of four parameter pairs, a table whose rows are the
cross-product of a fixed nowcast date, a horizon range, 50 location strings,
30 lineage strings, the constant label "sample", and a range of sample indices;
it then appends a derived `target_date` column and a random `value` column, and
writes each table to a parquet file.

Timestamps are embedded as integer nanoseconds since the Unix epoch (the
representation pandas itself uses), and the unseeded standard-normal generator
is embedded as an abstract stream `rng : ℕ → α` handing row `i` its draw
`rng i`; nothing below depends on the numeric content of the draws.
-/

/-- One calendar day in nanoseconds (pandas timestamps count nanoseconds). -/
def nanosPerDay : Int := 86400 * 1000000000

/-- `pd.to_datetime('2024-01-26')`: 2024-01-26 is 19748 days after the epoch. -/
def nowcastNanos : Int := 19748 * nanosPerDay

/-- `np.arange(lo, hi)` over integers: `lo, lo+1, …, hi-1`. -/
def arange (lo hi : Int) : List Int :=
  (List.range (hi - lo).toNat).map (fun k => lo + (k : Int))

/-- Lines 8–11 of `make-files.py`: `np.arange(-27, 8)` when `temp_scale == 'd'`,
`np.arange(-4, 2)` otherwise. -/
def horizons (temp_scale : String) : List Int :=
  if temp_scale = "d" then arange (-27) 8 else arange (-4) 2

/-- Line 17: `np.arange(50).astype('str')`. -/
def locations : List String := (List.range 50).map (fun i => toString i)

/-- Line 18: `np.arange(30).astype('str')`. -/
def lineages : List String := (List.range 30).map (fun i => toString i)

/-- Line 20: `np.arange(n_samples)` for a Python int `n` (empty when `n ≤ 0`). -/
def sampleIds (n : ℤ) : List ℕ := List.range n.toNat

/-- ASCII lowercasing of one character. -/
def lowerChar (c : Char) : Char :=
  if 65 ≤ c.toNat ∧ c.toNat ≤ 90 then Char.ofNat (c.toNat + 32) else c

/-- ASCII lowercasing of a string (`str.lower()`). -/
def lowerString (s : String) : String := ⟨s.data.map lowerChar⟩

/-- Modelled from the spec's external collaborator "date/calendar arithmetic
facility" (pandas `pd.to_timedelta(…, unit)`): the unit argument is looked up,
case-insensitively, in the recognized timedelta abbreviation table and converted
to nanoseconds; `"M"`, `"Y"` and `"y"` and unrecognized strings raise
`ValueError`, embedded here as `none`. -/
def timedeltaUnitNanos (unit : String) : Option Int :=
  if unit = "M" then none
  else
    match lowerString unit with
    | "w" | "week" | "weeks" => some (7 * nanosPerDay)
    | "d" | "day" | "days" => some nanosPerDay
    | "h" | "hr" | "hour" | "hours" => some (3600 * 1000000000)
    | "m" | "min" | "minute" | "minutes" | "t" => some (60 * 1000000000)
    | "s" | "sec" | "second" | "seconds" => some 1000000000
    | "ms" | "milli" | "millis" | "millisecond" | "milliseconds" | "l" => some 1000000
    | "us" | "micro" | "micros" | "microsecond" | "microseconds" | "u" => some 1000
    | "ns" | "nano" | "nanos" | "nanosecond" | "nanoseconds" | "n" => some 1
    | _ => none

/-- One row of the generated table.  `value` is kept polymorphic: the script
fills it with unseeded standard-normal draws whose numeric content no claim
depends on. -/
structure Row (α : Type) where
  nowcast_date : Int
  horizon : Int
  location : String
  lineage : String
  output_type : String
  output_type_id : ℕ
  target_date : Int
  value : α
deriving DecidableEq, Repr

/-- Line 22: the column names handed to `DataFrame.from_records`. -/
def baseColumns : List String :=
  ["nowcast_date", "horizon", "location", "lineage", "output_type", "output_type_id"]

/-- A data frame: the column names together with the list of rows. -/
structure Table (α : Type) where
  cols : List String
  rows : List (Row α)
deriving DecidableEq

/-- `df.shape`: (number of rows, number of columns). -/
def Table.shape (t : Table α) : ℕ × ℕ := (t.rows.length, t.cols.length)

/-- Lines 13–21: `list(product([date], horizons, locations, lineages,
['sample'], samples))`, in `itertools.product` order (leftmost factor slowest). -/
def crossTuples (temp_scale : String) (n_samples : ℤ) :
    List (Int × Int × String × String × String × ℕ) :=
  [nowcastNanos].flatMap (fun d =>
    (horizons temp_scale).flatMap (fun h =>
      locations.flatMap (fun loc =>
        lineages.flatMap (fun lin =>
          ["sample"].flatMap (fun ot =>
            (sampleIds n_samples).map (fun s => (d, h, loc, lin, ot, s)))))))

/-- Lines 25–26: append `target_date = nowcast_date + horizon * unit` (with
`unit` in nanoseconds) and `value`, row `i` receiving draw `rng i`. -/
def finishRow (u : Int) (rng : ℕ → α) :
    ℕ × Int × Int × String × String × String × ℕ → Row α
  | (i, d, h, loc, lin, ot, s) => ⟨d, h, loc, lin, ot, s, d + h * u, rng i⟩

/-- The row list of the finished data frame for a resolved timedelta unit `u`. -/
def tableRows (u : Int) (rng : ℕ → α) (temp_scale : String) (n_samples : ℤ) :
    List (Row α) :=
  ((crossTuples temp_scale n_samples).enum).map (finishRow u rng)

/-- Lines 7–28: `make_df`.  The `DataFrame` is built from the cross-product,
then `target_date` and `value` columns are appended; `pd.to_timedelta(…,
temp_scale)` raises for an unrecognized unit, embedded as `Except.error`. -/
def make_df (rng : ℕ → α) (temp_scale : String) (n_samples : ℤ) :
    Except String (Table α) :=
  match timedeltaUnitNanos temp_scale with
  | none => .error ("invalid unit abbreviation: " ++ temp_scale)
  | some u =>
      .ok ⟨baseColumns ++ ["target_date"] ++ ["value"],
           tableRows u rng temp_scale n_samples⟩

/-- An observable effect of the driver.  A bare expression statement such as
`df1.shape` in a Python script is evaluated and discarded — it prints nothing —
so only the parquet writes (and any hypothetical prints) appear in the trace. -/
inductive Effect (α : Type) where
  | writeParquet (path : String) (t : Table α)
  | printed (line : String)
deriving DecidableEq

/-- `true` exactly on effects that report something observably. -/
def Effect.isReport : Effect α → Bool
  | .printed _ => true
  | .writeParquet _ _ => false

/-- Lines 31–45: the driver.  Four `make_df` calls, each table written to its
numbered parquet path; the interleaved bare `dfK.shape` statements evaluate the
shape and discard it, contributing no effect. -/
def driverEffects (rng : ℕ → α) : Except String (List (Effect α)) := do
  let df1 ← make_df rng "d" 100
  let df2 ← make_df rng "d" 500
  let df3 ← make_df rng "w" 100
  let df4 ← make_df rng "w" 500
  pure [.writeParquet "parquet-file-sizes/example1.parquet" df1,
        .writeParquet "parquet-file-sizes/example2.parquet" df2,
        .writeParquet "parquet-file-sizes/example3.parquet" df3,
        .writeParquet "parquet-file-sizes/example4.parquet" df4]

/-- Forget the random `value` column, keeping the seven deterministic columns. -/
def stripValue (r : Row α) : Row Unit :=
  ⟨r.nowcast_date, r.horizon, r.location, r.lineage, r.output_type,
   r.output_type_id, r.target_date, ()⟩

/-- A table with its `value` column forgotten. -/
def stripValues (t : Table α) : Table Unit := ⟨t.cols, t.rows.map stripValue⟩

/-- A concrete stand-in for the unseeded generator, used to instantiate the
general theorems at concrete inputs. -/
def rngZ : ℕ → Int := fun _ => 0

/-- The full 8-column schema: six base columns plus the two appended ones. -/
def allColumns : List String := baseColumns ++ ["target_date"] ++ ["value"]

/-- The table `df1 = make_df('d', 100)` (with the concrete generator). -/
def exampleTable1 : Table Int := ⟨allColumns, tableRows nanosPerDay rngZ "d" 100⟩

/-- The table `df2 = make_df('d', 500)`. -/
def exampleTable2 : Table Int := ⟨allColumns, tableRows nanosPerDay rngZ "d" 500⟩

/-- The table `df3 = make_df('w', 100)`. -/
def exampleTable3 : Table Int := ⟨allColumns, tableRows (7 * nanosPerDay) rngZ "w" 100⟩

/-- The table `df4 = make_df('w', 500)`. -/
def exampleTable4 : Table Int := ⟨allColumns, tableRows (7 * nanosPerDay) rngZ "w" 500⟩

/-- The four write effects the driver performs, in order. -/
def driverWrites : List (Effect Int) :=
  [.writeParquet "parquet-file-sizes/example1.parquet" exampleTable1,
   .writeParquet "parquet-file-sizes/example2.parquet" exampleTable2,
   .writeParquet "parquet-file-sizes/example3.parquet" exampleTable3,
   .writeParquet "parquet-file-sizes/example4.parquet" exampleTable4]

/-- A small concrete table, `make_df('w', 1)` with the concrete generator. -/
def weekTable1 : Table Int := ⟨allColumns, tableRows (7 * nanosPerDay) rngZ "w" 1⟩

/-- The first row of `weekTable1`. -/
def sampleRow : Row Int :=
  ⟨nowcastNanos, -4, "0", "0", "sample", 0,
   nowcastNanos + (-4) * (7 * nanosPerDay), 0⟩

/-! ### Structural lemmas about the cross-product -/

/-- Counting with a constant predicate. -/
lemma countP_const_fun (l : List α) (b : Bool) :
    l.countP (fun _ => b) = if b then l.length else 0 := by
  induction l with
  | nil => simp
  | cons a t ih => cases b <;> simp [List.countP_cons, ih]

/-- Length of a `flatMap` whose blocks all have length `m`. -/
lemma flatMap_length_const (l : List α) (f : α → List β) (m : ℕ)
    (h : ∀ a ∈ l, (f a).length = m) : (l.flatMap f).length = l.length * m := by
  induction l with
  | nil => simp
  | cons a t ih =>
      rw [List.flatMap_cons, List.length_append, h a (by simp),
          ih (fun x hx => h x (by simp [hx])), List.length_cons, Nat.succ_mul]
      omega

/-- Indexing a `flatMap` whose blocks all have length `m`: block `i / m`,
offset `i % m`. -/
lemma flatMap_getElem?_const (l : List α) (f : α → List β) (m : ℕ)
    (h : ∀ a ∈ l, (f a).length = m) (i : ℕ) (hi : i < l.length * m) :
    (l.flatMap f)[i]? = l[i / m]?.bind (fun a => (f a)[i % m]?) := by
  induction l generalizing i with
  | nil => simp at hi
  | cons a t ih =>
      have ha : (f a).length = m := h a (by simp)
      rw [List.flatMap_cons, List.getElem?_append, ha]
      by_cases hcase : i < m
      · rw [if_pos hcase, Nat.div_eq_of_lt hcase, Nat.mod_eq_of_lt hcase]
        simp
      · rw [if_neg hcase]
        push_neg at hcase
        have hm : 0 < m := by
          rcases Nat.eq_zero_or_pos m with h0 | h0
          · subst h0; simp at hi
          · exact h0
        obtain ⟨q, hq⟩ : ∃ q, i / m = q + 1 :=
          ⟨i / m - 1, by have := (Nat.one_le_div_iff hm).mpr hcase; omega⟩
        have hr : i % m < m := Nat.mod_lt i hm
        have hdm := Nat.div_add_mod i m
        rw [hq] at hdm
        have hexp : m * (q + 1) = m * q + m := by ring
        have him : i - m = m * q + i % m := by omega
        have hi' : i - m < t.length * m := by
          rw [List.length_cons, Nat.succ_mul] at hi; omega
        rw [ih (fun x hx => h x (by simp [hx])) (i - m) hi']
        have h1 : (i - m) / m = q := by
          rw [him, Nat.mul_add_div hm, Nat.div_eq_of_lt hr]
          omega
        have h2 : (i - m) % m = i % m := by
          rw [him, Nat.mul_add_mod, Nat.mod_eq_of_lt hr]
        rw [h1, h2, hq]
        simp

/-- Counting over a `flatMap` whose blocks all contain `c` matches. -/
lemma flatMap_countP_const (l : List α) (f : α → List β) (p : β → Bool) (c : ℕ)
    (h : ∀ a ∈ l, (f a).countP p = c) : (l.flatMap f).countP p = l.length * c := by
  induction l with
  | nil => simp
  | cons a t ih =>
      rw [List.flatMap_cons, List.countP_append, h a (by simp),
          ih (fun x hx => h x (by simp [hx])), List.length_cons, Nat.succ_mul]
      omega

/-- Counting over a `flatMap` whose block at `a` contains `k` matches when
`a = s` and none otherwise. -/
lemma flatMap_countP_single [DecidableEq α] (l : List α) (f : α → List β)
    (p : β → Bool) (s : α) (k : ℕ)
    (h : ∀ a ∈ l, (f a).countP p = if a = s then k else 0) :
    (l.flatMap f).countP p = l.count s * k := by
  induction l with
  | nil => simp
  | cons a t ih =>
      rw [List.flatMap_cons, List.countP_append, h a (by simp),
          ih (fun x hx => h x (by simp [hx])), List.count_cons]
      by_cases has : a = s
      · simp only [has, if_pos rfl, beq_self_eq_true, if_true, Nat.add_mul]
        omega
      · have : (a == s) = false := beq_false_of_ne has
        simp [has, this]

/-- `crossTuples` with the two singleton dimensions folded away. -/
lemma crossTuples_eq (ts : String) (n : ℤ) :
    crossTuples ts n =
      (horizons ts).flatMap (fun h =>
        locations.flatMap (fun loc =>
          lineages.flatMap (fun lin =>
            (sampleIds n).map (fun s => (nowcastNanos, h, loc, lin, "sample", s))))) := by
  simp [crossTuples]

lemma inner1_length (h : Int) (loc lin : String) (n : ℤ) :
    ((sampleIds n).map (fun s => (nowcastNanos, h, loc, lin, "sample", s))).length
      = n.toNat := by
  simp [sampleIds]

lemma inner2_length (h : Int) (loc : String) (n : ℤ) :
    (lineages.flatMap (fun lin =>
      (sampleIds n).map (fun s => (nowcastNanos, h, loc, lin, "sample", s)))).length
      = 30 * n.toNat := by
  rw [flatMap_length_const _ _ n.toNat (fun lin _ => inner1_length h loc lin n)]
  simp [lineages]

lemma inner3_length (h : Int) (n : ℤ) :
    (locations.flatMap (fun loc =>
      lineages.flatMap (fun lin =>
        (sampleIds n).map (fun s => (nowcastNanos, h, loc, lin, "sample", s))))).length
      = 50 * (30 * n.toNat) := by
  rw [flatMap_length_const _ _ (30 * n.toNat) (fun loc _ => inner2_length h loc n)]
  simp [locations]

lemma crossTuples_length (ts : String) (n : ℤ) :
    (crossTuples ts n).length = (horizons ts).length * (50 * (30 * n.toNat)) := by
  rw [crossTuples_eq]
  exact flatMap_length_const _ _ _ (fun h _ => inner3_length h n)

lemma tableRows_length (u : Int) (rng : ℕ → α) (ts : String) (n : ℤ) :
    (tableRows u rng ts n).length = (horizons ts).length * (50 * (30 * n.toNat)) := by
  simp only [tableRows]
  rw [List.length_map, List.enum_length, crossTuples_length]

lemma horizons_length (ts : String) :
    (horizons ts).length = if ts = "d" then 35 else 6 := by
  by_cases h : ts = "d" <;> simp only [horizons, h, if_true, if_false] <;> decide

/-- Shape of an arbitrary element of the cross-product. -/
lemma mem_crossTuples (ts : String) (n : ℤ)
    (x : Int × Int × String × String × String × ℕ) (hx : x ∈ crossTuples ts n) :
    ∃ h ∈ horizons ts, ∃ a < 50, ∃ b < 30, ∃ s < n.toNat,
      x = (nowcastNanos, h, toString a, toString b, "sample", s) := by
  rw [crossTuples_eq] at hx
  simp only [List.mem_flatMap, List.mem_map, locations, lineages, sampleIds,
    List.mem_range] at hx
  obtain ⟨h, hh, loc, ⟨a, ha, rfl⟩, lin, ⟨b, hb, rfl⟩, s, hs, rfl⟩ := hx
  exact ⟨h, hh, a, ha, b, hb, s, hs, rfl⟩

/-- Shape of an arbitrary row of the finished table. -/
lemma mem_tableRows (u : Int) (rng : ℕ → α) (ts : String) (n : ℤ) (r : Row α)
    (hr : r ∈ tableRows u rng ts n) :
    ∃ hz ∈ horizons ts, ∃ a < 50, ∃ b < 30, ∃ s < n.toNat, ∃ i : ℕ,
      r = ⟨nowcastNanos, hz, toString a, toString b, "sample", s,
           nowcastNanos + hz * u, rng i⟩ := by
  simp only [tableRows, List.mem_map] at hr
  obtain ⟨⟨i, x⟩, hmem, rfl⟩ := hr
  have hx : x ∈ crossTuples ts n := by
    have h2 := List.mem_map_of_mem Prod.snd hmem
    rwa [List.enum_map_snd] at h2
  obtain ⟨hz, hh, a, ha, b, hb, s, hs, rfl⟩ := mem_crossTuples ts n x hx
  exact ⟨hz, hh, a, ha, b, hb, s, hs, i, rfl⟩

/-- Counting rows reduces to counting tuples when the predicate ignores the
row index. -/
lemma countP_tableRows (u : Int) (rng : ℕ → α) (ts : String) (n : ℤ)
    (p : Row α → Bool) (q : Int × Int × String × String × String × ℕ → Bool)
    (hpq : ∀ i x, p (finishRow u rng (i, x)) = q x) :
    (tableRows u rng ts n).countP p = (crossTuples ts n).countP q := by
  simp only [tableRows]
  rw [List.countP_map]
  have h1 : (p ∘ finishRow u rng) = fun y : ℕ × Int × Int × String × String × String × ℕ => q y.2 := by
    funext y
    obtain ⟨i, x⟩ := y
    exact hpq i x
  rw [h1]
  conv_rhs => rw [← List.enum_map_snd (crossTuples ts n), List.countP_map]
  simp [Function.comp_def]

lemma locations_nodup : locations.Nodup := by decide

lemma lineages_nodup : lineages.Nodup := by decide

lemma count_locations (v : ℕ) (hv : v < 50) : locations.count (toString v) = 1 :=
  List.count_eq_one_of_mem locations_nodup
    (List.mem_map_of_mem _ (List.mem_range.mpr hv))

lemma count_lineages (v : ℕ) (hv : v < 30) : lineages.count (toString v) = 1 :=
  List.count_eq_one_of_mem lineages_nodup
    (List.mem_map_of_mem _ (List.mem_range.mpr hv))

/-! Counting tuples whose location slot is a given string. -/

lemma countLoc1 (h : Int) (loc lin : String) (n : ℤ) (v : ℕ) :
    ((sampleIds n).map (fun s => (nowcastNanos, h, loc, lin, "sample", s))).countP
        (fun x => x.2.2.1 == toString v)
      = if loc = toString v then n.toNat else 0 := by
  rw [List.countP_map]
  have he : ((fun x : Int × Int × String × String × String × ℕ => x.2.2.1 == toString v) ∘
      (fun s => (nowcastNanos, h, loc, lin, "sample", s))) = fun _ => (loc == toString v) := rfl
  rw [he, countP_const_fun]
  by_cases hc : loc = toString v <;> simp [sampleIds, hc]

lemma countLoc2 (h : Int) (loc : String) (n : ℤ) (v : ℕ) :
    (lineages.flatMap (fun lin =>
        (sampleIds n).map (fun s => (nowcastNanos, h, loc, lin, "sample", s)))).countP
        (fun x => x.2.2.1 == toString v)
      = if loc = toString v then 30 * n.toNat else 0 := by
  rw [flatMap_countP_const _ _ _ (if loc = toString v then n.toNat else 0)
    (fun lin _ => countLoc1 h loc lin n v)]
  by_cases hc : loc = toString v <;> simp [lineages, hc]

lemma countLoc3 (h : Int) (n : ℤ) (v : ℕ) (hv : v < 50) :
    (locations.flatMap (fun loc =>
        lineages.flatMap (fun lin =>
          (sampleIds n).map (fun s => (nowcastNanos, h, loc, lin, "sample", s))))).countP
        (fun x => x.2.2.1 == toString v)
      = 30 * n.toNat := by
  rw [flatMap_countP_single locations _ _ (toString v) (30 * n.toNat)
    (fun loc _ => countLoc2 h loc n v)]
  rw [count_locations v hv, one_mul]

lemma countP_tableRows_location (u : Int) (rng : ℕ → α) (ts : String) (n : ℤ)
    (v : ℕ) (hv : v < 50) :
    (tableRows u rng ts n).countP (fun r => r.location == toString v)
      = (horizons ts).length * (30 * n.toNat) := by
  rw [countP_tableRows u rng ts n _ (fun x => x.2.2.1 == toString v)
    (fun i x => by obtain ⟨d, h, loc, lin, ot, s⟩ := x; rfl)]
  rw [crossTuples_eq]
  exact flatMap_countP_const _ _ _ _ (fun h _ => countLoc3 h n v hv)

/-! Counting tuples whose lineage slot is a given string. -/

lemma countLin1 (h : Int) (loc lin : String) (n : ℤ) (v : ℕ) :
    ((sampleIds n).map (fun s => (nowcastNanos, h, loc, lin, "sample", s))).countP
        (fun x => x.2.2.2.1 == toString v)
      = if lin = toString v then n.toNat else 0 := by
  rw [List.countP_map]
  have he : ((fun x : Int × Int × String × String × String × ℕ => x.2.2.2.1 == toString v) ∘
      (fun s => (nowcastNanos, h, loc, lin, "sample", s))) = fun _ => (lin == toString v) := rfl
  rw [he, countP_const_fun]
  by_cases hc : lin = toString v <;> simp [sampleIds, hc]

lemma countLin2 (h : Int) (loc : String) (n : ℤ) (v : ℕ) (hv : v < 30) :
    (lineages.flatMap (fun lin =>
        (sampleIds n).map (fun s => (nowcastNanos, h, loc, lin, "sample", s)))).countP
        (fun x => x.2.2.2.1 == toString v)
      = n.toNat := by
  rw [flatMap_countP_single lineages _ _ (toString v) n.toNat
    (fun lin _ => countLin1 h loc lin n v)]
  rw [count_lineages v hv, one_mul]

lemma countLin3 (h : Int) (n : ℤ) (v : ℕ) (hv : v < 30) :
    (locations.flatMap (fun loc =>
        lineages.flatMap (fun lin =>
          (sampleIds n).map (fun s => (nowcastNanos, h, loc, lin, "sample", s))))).countP
        (fun x => x.2.2.2.1 == toString v)
      = 50 * n.toNat := by
  rw [flatMap_countP_const _ _ _ n.toNat (fun loc _ => countLin2 h loc n v hv)]
  simp [locations]

lemma countP_tableRows_lineage (u : Int) (rng : ℕ → α) (ts : String) (n : ℤ)
    (v : ℕ) (hv : v < 30) :
    (tableRows u rng ts n).countP (fun r => r.lineage == toString v)
      = (horizons ts).length * (50 * n.toNat) := by
  rw [countP_tableRows u rng ts n _ (fun x => x.2.2.2.1 == toString v)
    (fun i x => by obtain ⟨d, h, loc, lin, ot, s⟩ := x; rfl)]
  rw [crossTuples_eq]
  exact flatMap_countP_const _ _ _ _ (fun h _ => countLin3 h n v hv)

/-! Counting tuples whose sample-index slot is a given value. -/

lemma countSid1 (h : Int) (loc lin : String) (n : ℤ) (w : ℕ) (hw : w < n.toNat) :
    ((sampleIds n).map (fun s => (nowcastNanos, h, loc, lin, "sample", s))).countP
        (fun x => x.2.2.2.2.2 == w)
      = 1 := by
  rw [List.countP_map]
  have he : ((fun x : Int × Int × String × String × String × ℕ => x.2.2.2.2.2 == w) ∘
      (fun s => (nowcastNanos, h, loc, lin, "sample", s))) = fun s : ℕ => (s == w) := rfl
  rw [he]
  have hc : (sampleIds n).countP (fun s : ℕ => (s == w)) = (sampleIds n).count w := rfl
  rw [hc]
  exact List.count_eq_one_of_mem (List.nodup_range _) (by simp [sampleIds, hw])

lemma countSid2 (h : Int) (loc : String) (n : ℤ) (w : ℕ) (hw : w < n.toNat) :
    (lineages.flatMap (fun lin =>
        (sampleIds n).map (fun s => (nowcastNanos, h, loc, lin, "sample", s)))).countP
        (fun x => x.2.2.2.2.2 == w)
      = 30 := by
  rw [flatMap_countP_const _ _ _ 1 (fun lin _ => countSid1 h loc lin n w hw)]
  simp [lineages]

lemma countSid3 (h : Int) (n : ℤ) (w : ℕ) (hw : w < n.toNat) :
    (locations.flatMap (fun loc =>
        lineages.flatMap (fun lin =>
          (sampleIds n).map (fun s => (nowcastNanos, h, loc, lin, "sample", s))))).countP
        (fun x => x.2.2.2.2.2 == w)
      = 50 * 30 := by
  rw [flatMap_countP_const _ _ _ 30 (fun loc _ => countSid2 h loc n w hw)]
  simp [locations]

lemma countP_tableRows_sid (u : Int) (rng : ℕ → α) (ts : String) (n : ℤ)
    (w : ℕ) (hw : w < n.toNat) :
    (tableRows u rng ts n).countP (fun r => r.output_type_id == w)
      = (horizons ts).length * (50 * 30) := by
  rw [countP_tableRows u rng ts n _ (fun x => x.2.2.2.2.2 == w)
    (fun i x => by obtain ⟨d, h, loc, lin, ot, s⟩ := x; rfl)]
  rw [crossTuples_eq]
  exact flatMap_countP_const _ _ _ _ (fun h _ => countSid3 h n w hw)

/-! ### Characterizing `make_df` -/

lemma unit_d : timedeltaUnitNanos "d" = some nanosPerDay := by decide

lemma unit_w : timedeltaUnitNanos "w" = some (7 * nanosPerDay) := by decide

lemma unit_h : timedeltaUnitNanos "h" = some (3600 * 1000000000) := by decide

lemma unit_qqq : timedeltaUnitNanos "qqq" = none := by decide

lemma make_df_eq_ok (rng : ℕ → α) (ts : String) (n : ℤ) (u : Int)
    (hu : timedeltaUnitNanos ts = some u) :
    make_df rng ts n =
      .ok ⟨baseColumns ++ ["target_date"] ++ ["value"], tableRows u rng ts n⟩ := by
  simp [make_df, hu]

lemma make_df_eq_error (rng : ℕ → α) (ts : String) (n : ℤ)
    (hu : timedeltaUnitNanos ts = none) :
    make_df rng ts n = .error ("invalid unit abbreviation: " ++ ts) := by
  simp [make_df, hu]

lemma make_df_ok_elim (rng : ℕ → α) (ts : String) (n : ℤ) (t : Table α)
    (ht : make_df rng ts n = .ok t) :
    ∃ u, timedeltaUnitNanos ts = some u ∧
      t = ⟨baseColumns ++ ["target_date"] ++ ["value"], tableRows u rng ts n⟩ := by
  cases hu : timedeltaUnitNanos ts with
  | none => rw [make_df_eq_error rng ts n hu] at ht; exact absurd ht (by simp)
  | some u =>
      rw [make_df_eq_ok rng ts n u hu] at ht
      exact ⟨u, rfl, (Except.ok.inj ht).symm⟩

/-! ### Claim theorems -/

/-- C1: for every positive sample count `N`, `make_df` with the day-based scale
returns a table of exactly `35 × 50 × 30 × N` rows and 8 columns, and with the
week-based scale a table of exactly `6 × 50 × 30 × N` rows and 8 columns. -/
theorem claim_C1_shape (n : ℤ) (hn : 0 < n) (rng : ℕ → α) :
    (make_df rng "d" n).map Table.shape = .ok (35 * 50 * 30 * n.toNat, 8) ∧
    (make_df rng "w" n).map Table.shape = .ok (6 * 50 * 30 * n.toNat, 8) := by
  constructor
  · rw [make_df_eq_ok rng "d" n nanosPerDay unit_d]
    simp only [Except.map, Table.shape]
    congr 1
    rw [Prod.mk.injEq]
    constructor
    · rw [tableRows_length, horizons_length, if_pos rfl]; ring
    · decide
  · rw [make_df_eq_ok rng "w" n (7 * nanosPerDay) unit_w]
    simp only [Except.map, Table.shape]
    congr 1
    rw [Prod.mk.injEq]
    constructor
    · rw [tableRows_length, horizons_length, if_neg (by decide)]; ring
    · decide

/-- Witness for C1 at `n = 2`. -/
theorem claim_C1_shape_witness :
    (make_df rngZ "d" 2).map Table.shape = .ok (35 * 50 * 30 * (2 : ℤ).toNat, 8) ∧
    (make_df rngZ "w" 2).map Table.shape = .ok (6 * 50 * 30 * (2 : ℤ).toNat, 8) :=
  claim_C1_shape 2 (by decide) rngZ

/-- C10: the horizon-selection branch uses the day-based range `-27..7` only
for the exact string `'d'`; every other scale argument — including arbitrary
unrecognized strings — selects the weekly range `-4..1`. -/
theorem claim_C10_horizons (ts : String) :
    (ts ≠ "d" → horizons ts = arange (-4) 2) ∧
    (horizons ts = arange (-27) 8 ↔ ts = "d") := by
  constructor
  · intro h; simp [horizons, h]
  · constructor
    · intro he
      by_contra hne
      rw [horizons, if_neg hne] at he
      exact absurd he (by decide)
    · intro h; simp [horizons, h]

/-- Witness for C10 at the unrecognized scale `"banana"`. -/
theorem claim_C10_horizons_witness :
    horizons "banana" = arange (-4) 2 ∧ horizons "banana" ≠ arange (-27) 8 :=
  ⟨(claim_C10_horizons "banana").1 (by decide),
   fun he => absurd ((claim_C10_horizons "banana").2.mp he) (by decide)⟩

/-- C9: two invocations of `make_df` with the same scale and sample count but
different random draws produce tables identical in every column except
`value`. -/
theorem claim_C9_deterministic (ts : String) (n : ℤ) (rng₁ rng₂ : ℕ → α) :
    (make_df rng₁ ts n).map stripValues = (make_df rng₂ ts n).map stripValues := by
  cases hu : timedeltaUnitNanos ts with
  | none => rw [make_df_eq_error rng₁ ts n hu, make_df_eq_error rng₂ ts n hu]
  | some u =>
      rw [make_df_eq_ok rng₁ ts n u hu, make_df_eq_ok rng₂ ts n u hu]
      have hrows : (tableRows u rng₁ ts n).map stripValue
          = (tableRows u rng₂ ts n).map stripValue := by
        simp only [tableRows, List.map_map]
        apply List.map_congr_left
        intro y _
        obtain ⟨i, d, h, loc, lin, ot, s⟩ := y
        rfl
      simp only [Except.map, stripValues, hrows]

/-- C3 counterexample: the unrecognized scale `'h'` is not rejected —
`make_df` silently returns a table whose `target_date` is computed in hours. -/
theorem claim_C3_counterexample :
    ∃ t : Table Int, make_df rngZ "h" 1 = .ok t ∧ t.rows ≠ [] ∧
      ∀ r ∈ t.rows, r.target_date = r.nowcast_date + r.horizon * (3600 * 1000000000) := by
  refine ⟨_, make_df_eq_ok rngZ "h" 1 (3600 * 1000000000) unit_h, ?_, ?_⟩
  · intro he
    have hlen := congrArg List.length he
    rw [tableRows_length, horizons_length] at hlen
    simp at hlen
  · intro r hr
    obtain ⟨hz, hh, a, ha, b, hb, s, hs, i, rfl⟩ :=
      mem_tableRows (3600 * 1000000000) rngZ "h" 1 r hr
    rfl

/-- C3 (amended): `make_df` fails fast with a descriptive error exactly for
scale arguments the timedelta-unit table does not recognize; for recognized
non-day, non-week abbreviations (such as `'h'`) it silently returns a table. -/
theorem claim_C3_amended (ts : String) (n : ℤ) (rng : ℕ → α) :
    (timedeltaUnitNanos ts = none →
      make_df rng ts n = .error ("invalid unit abbreviation: " ++ ts)) ∧
    (∀ u : Int, timedeltaUnitNanos ts = some u → ∃ t, make_df rng ts n = .ok t) := by
  constructor
  · intro hu; exact make_df_eq_error rng ts n hu
  · intro u hu; exact ⟨_, make_df_eq_ok rng ts n u hu⟩

/-- Witness for the amended C3 at the unrecognized scale `"qqq"`. -/
theorem claim_C3_amended_witness :
    make_df rngZ "qqq" 1 = .error ("invalid unit abbreviation: " ++ "qqq") :=
  (claim_C3_amended "qqq" 1 rngZ).1 unit_qqq

/-- C4 counterexample: `make_df('d', 0)` reports nothing — it succeeds and
returns an empty 8-column table. -/
theorem claim_C4_counterexample :
    ∃ t : Table Int, make_df rngZ "d" 0 = .ok t ∧ t.rows = [] ∧ t.cols.length = 8 := by
  refine ⟨_, make_df_eq_ok rngZ "d" 0 nanosPerDay unit_d, ?_, ?_⟩
  · exact List.length_eq_zero.mp (by rw [tableRows_length]; simp)
  · decide

/-- C4 (amended): for every non-positive `n_samples`, `make_df` with either
valid scale silently returns an empty table with the full 8-column schema
instead of reporting a precondition violation. -/
theorem claim_C4_amended (n : ℤ) (hn : n ≤ 0) (rng : ℕ → α) :
    (∃ t, make_df rng "d" n = .ok t ∧ t.rows = [] ∧ t.cols.length = 8) ∧
    (∃ t, make_df rng "w" n = .ok t ∧ t.rows = [] ∧ t.cols.length = 8) := by
  have h0 : n.toNat = 0 := Int.toNat_of_nonpos hn
  constructor
  · refine ⟨_, make_df_eq_ok rng "d" n nanosPerDay unit_d, ?_, ?_⟩
    · exact List.length_eq_zero.mp (by rw [tableRows_length, h0]; simp)
    · rfl
  · refine ⟨_, make_df_eq_ok rng "w" n (7 * nanosPerDay) unit_w, ?_, ?_⟩
    · exact List.length_eq_zero.mp (by rw [tableRows_length, h0]; simp)
    · rfl

/-- Witness for the amended C4 at `n = -3`. -/
theorem claim_C4_amended_witness :
    (∃ t, make_df rngZ "d" (-3) = .ok t ∧ t.rows = [] ∧ t.cols.length = 8) ∧
    (∃ t, make_df rngZ "w" (-3) = .ok t ∧ t.rows = [] ∧ t.cols.length = 8) :=
  claim_C4_amended (-3) (by decide) rngZ

/-- C2: in every row of a table produced by `make_df`, `nowcast_date` is the
fixed date 2024-01-26 and `target_date` equals `nowcast_date` plus `horizon`
days for the day-based scale, and plus `horizon` weeks for the week-based
scale. -/
theorem claim_C2_target_date (ts : String) (n : ℤ) (rng : ℕ → α) (t : Table α)
    (ht : make_df rng ts n = .ok t) (r : Row α) (hr : r ∈ t.rows) :
    r.nowcast_date = nowcastNanos ∧
    (ts = "d" → r.target_date = r.nowcast_date + r.horizon * nanosPerDay) ∧
    (ts = "w" → r.target_date = r.nowcast_date + r.horizon * (7 * nanosPerDay)) := by
  obtain ⟨u, hu, rfl⟩ := make_df_ok_elim rng ts n t ht
  obtain ⟨hz, hh, a, ha, b, hb, s, hs, i, rfl⟩ := mem_tableRows u rng ts n r hr
  refine ⟨rfl, ?_, ?_⟩
  · intro hd
    subst hd
    have huv : u = nanosPerDay := Option.some.inj (hu.symm.trans unit_d)
    rw [huv]
  · intro hw
    subst hw
    have huv : u = 7 * nanosPerDay := Option.some.inj (hu.symm.trans unit_w)
    rw [huv]

/-- Witness for C2: some row of the concrete table `make_df('w', 1)`. -/
theorem claim_C2_target_date_witness :
    ∃ r ∈ weekTable1.rows,
      r.nowcast_date = nowcastNanos ∧
      ("w" = "d" → r.target_date = r.nowcast_date + r.horizon * nanosPerDay) ∧
      ("w" = "w" → r.target_date = r.nowcast_date + r.horizon * (7 * nanosPerDay)) := by
  have hne : weekTable1.rows ≠ [] := by
    intro he
    have hlen := congrArg List.length he
    rw [show weekTable1.rows = tableRows (7 * nanosPerDay) rngZ "w" 1 from rfl,
      tableRows_length, horizons_length] at hlen
    simp at hlen
  obtain ⟨r, hr⟩ := List.exists_mem_of_ne_nil _ hne
  exact ⟨r, hr, claim_C2_target_date "w" 1 rngZ weekTable1
    (make_df_eq_ok rngZ "w" 1 (7 * nanosPerDay) unit_w) r hr⟩

/-- C6: in every table produced by `make_df`, the `location` column takes only
the string values `"0".."49"` and the `lineage` column only `"0".."29"`, and
for every such value the number of rows carrying it is exactly `rows/50`
(respectively `rows/30`). -/
theorem claim_C6_location_lineage (ts : String) (n : ℤ) (rng : ℕ → α)
    (t : Table α) (ht : make_df rng ts n = .ok t) :
    (∀ r ∈ t.rows, r.location ∈ locations ∧ r.lineage ∈ lineages) ∧
    (∀ v : ℕ, v < 50 →
      t.rows.countP (fun r => r.location == toString v) = t.rows.length / 50) ∧
    (∀ v : ℕ, v < 30 →
      t.rows.countP (fun r => r.lineage == toString v) = t.rows.length / 30) := by
  obtain ⟨u, hu, rfl⟩ := make_df_ok_elim rng ts n t ht
  refine ⟨?_, ?_, ?_⟩
  · intro r hr
    obtain ⟨hz, hh, a, ha, b, hb, s, hs, i, rfl⟩ := mem_tableRows u rng ts n r hr
    exact ⟨List.mem_map_of_mem _ (List.mem_range.mpr ha),
           List.mem_map_of_mem _ (List.mem_range.mpr hb)⟩
  · intro v hv
    show (tableRows u rng ts n).countP _ = (tableRows u rng ts n).length / 50
    rw [countP_tableRows_location u rng ts n v hv, tableRows_length,
      show (horizons ts).length * (50 * (30 * n.toNat))
        = 50 * ((horizons ts).length * (30 * n.toNat)) by ring,
      Nat.mul_div_cancel_left _ (by norm_num)]
  · intro v hv
    show (tableRows u rng ts n).countP _ = (tableRows u rng ts n).length / 30
    rw [countP_tableRows_lineage u rng ts n v hv, tableRows_length,
      show (horizons ts).length * (50 * (30 * n.toNat))
        = 30 * ((horizons ts).length * (50 * n.toNat)) by ring,
      Nat.mul_div_cancel_left _ (by norm_num)]

/-- Witness for C6 on the concrete table `make_df('w', 1)`. -/
theorem claim_C6_location_lineage_witness :
    (∀ r ∈ weekTable1.rows, r.location ∈ locations ∧ r.lineage ∈ lineages) ∧
    (∀ v : ℕ, v < 50 →
      weekTable1.rows.countP (fun r => r.location == toString v)
        = weekTable1.rows.length / 50) ∧
    (∀ v : ℕ, v < 30 →
      weekTable1.rows.countP (fun r => r.lineage == toString v)
        = weekTable1.rows.length / 30) :=
  claim_C6_location_lineage "w" 1 rngZ weekTable1
    (make_df_eq_ok rngZ "w" 1 (7 * nanosPerDay) unit_w)

/-- C7: in every table produced by `make_df` with sample count `N > 0`,
`output_type` is the constant `"sample"`, `output_type_id` takes exactly the
values `0..N-1`, and each value appears in exactly `rows/N` rows. -/
theorem claim_C7_output_type (ts : String) (n : ℤ) (hn : 0 < n) (rng : ℕ → α)
    (t : Table α) (ht : make_df rng ts n = .ok t) :
    (∀ r ∈ t.rows, r.output_type = "sample" ∧ r.output_type_id < n.toNat) ∧
    (∀ w : ℕ, w < n.toNat → ∃ r ∈ t.rows, r.output_type_id = w) ∧
    (∀ w : ℕ, w < n.toNat →
      t.rows.countP (fun r => r.output_type_id == w) = t.rows.length / n.toNat) := by
  obtain ⟨u, hu, rfl⟩ := make_df_ok_elim rng ts n t ht
  have hH : 0 < (horizons ts).length := by
    rw [horizons_length]; split <;> norm_num
  refine ⟨?_, ?_, ?_⟩
  · intro r hr
    obtain ⟨hz, hh, a, ha, b, hb, s, hs, i, rfl⟩ := mem_tableRows u rng ts n r hr
    exact ⟨rfl, hs⟩
  · intro w hw
    have hpos : 0 < (tableRows u rng ts n).countP (fun r => r.output_type_id == w) := by
      rw [countP_tableRows_sid u rng ts n w hw]
      exact Nat.mul_pos hH (by norm_num)
    obtain ⟨r, hr, hrw⟩ := List.countP_pos_iff.mp hpos
    exact ⟨r, hr, by simpa using hrw⟩
  · intro w hw
    have hN : 0 < n.toNat := by omega
    show (tableRows u rng ts n).countP _ = (tableRows u rng ts n).length / n.toNat
    rw [countP_tableRows_sid u rng ts n w hw, tableRows_length,
      show (horizons ts).length * (50 * (30 * n.toNat))
        = ((horizons ts).length * (50 * 30)) * n.toNat by ring,
      Nat.mul_div_cancel _ hN]

/-- Witness for C7 on the concrete table `make_df('w', 1)`. -/
theorem claim_C7_output_type_witness :
    (∀ r ∈ weekTable1.rows, r.output_type = "sample" ∧ r.output_type_id < (1 : ℤ).toNat) ∧
    (∀ w : ℕ, w < (1 : ℤ).toNat → ∃ r ∈ weekTable1.rows, r.output_type_id = w) ∧
    (∀ w : ℕ, w < (1 : ℤ).toNat →
      weekTable1.rows.countP (fun r => r.output_type_id == w)
        = weekTable1.rows.length / (1 : ℤ).toNat) :=
  claim_C7_output_type "w" 1 (by decide) rngZ weekTable1
    (make_df_eq_ok rngZ "w" 1 (7 * nanosPerDay) unit_w)

/-- C5: rows appear in cross-product enumeration order — the date dimension is
constant, horizon varies slowest (in the ascending order of the horizon list),
then location, then lineage, and the sample index varies fastest: row `i`
carries horizon `horizons[i / (50·30·N)]`, location `(i / (30·N)) % 50`,
lineage `(i / N) % 30` and sample index `i % N`. -/
theorem claim_C5_row_order (ts : String) (u : Int)
    (hu : timedeltaUnitNanos ts = some u) (n : ℤ) (rng : ℕ → α) (t : Table α)
    (ht : make_df rng ts n = .ok t) (i : ℕ) (hi : i < t.rows.length) :
    List.Sorted (· < ·) (horizons ts) ∧
    t.rows[i]? = ((horizons ts)[i / (50 * (30 * n.toNat))]?).map (fun hz =>
      ⟨nowcastNanos, hz, toString (i / (30 * n.toNat) % 50),
       toString (i / n.toNat % 30), "sample", i % n.toNat,
       nowcastNanos + hz * u, rng i⟩) := by
  refine ⟨?_, ?_⟩
  · by_cases hts : ts = "d"
    · simp only [horizons]
      rw [if_pos hts]
      decide
    · simp only [horizons]
      rw [if_neg hts]
      decide
  obtain ⟨u', hu', rfl⟩ := make_df_ok_elim rng ts n t ht
  obtain rfl : u' = u := Option.some.inj (hu'.symm.trans hu)
  dsimp only at hi ⊢
  rw [tableRows_length] at hi
  have hN : 0 < n.toNat := by
    rcases Nat.eq_zero_or_pos n.toNat with h0 | h0
    · rw [h0] at hi; simp at hi
    · exact h0
  have hm2 : 0 < 30 * n.toNat := by omega
  have hm1 : 0 < 50 * (30 * n.toNat) := by omega
  simp only [tableRows, List.getElem?_map, List.getElem?_enum]
  rw [crossTuples_eq]
  rw [flatMap_getElem?_const _ _ (50 * (30 * n.toNat))
    (fun h _ => inner3_length h n) i hi]
  cases hh : (horizons ts)[i / (50 * (30 * n.toNat))]? with
  | none => simp
  | some hz =>
      simp only [Option.some_bind]
      have hlb : i % (50 * (30 * n.toNat)) < locations.length * (30 * n.toNat) := by
        have h50 : locations.length = 50 := by simp [locations]
        rw [h50]
        exact Nat.mod_lt i hm1
      rw [flatMap_getElem?_const _ _ (30 * n.toNat)
        (fun loc _ => inner2_length hz loc n) (i % (50 * (30 * n.toNat))) hlb]
      have e1 : i % (50 * (30 * n.toNat)) / (30 * n.toNat) = i / (30 * n.toNat) % 50 := by
        rw [mul_comm 50 (30 * n.toNat)]
        exact Nat.mod_mul_right_div_self i (30 * n.toNat) 50
      have e2 : i % (50 * (30 * n.toNat)) % (30 * n.toNat) = i % (30 * n.toNat) :=
        Nat.mod_mod_of_dvd i ⟨50, by ring⟩
      rw [e1, e2]
      have hloc : locations[i / (30 * n.toNat) % 50]?
          = some (toString (i / (30 * n.toNat) % 50)) := by
        simp only [locations, List.getElem?_map]
        rw [List.getElem?_range (Nat.mod_lt _ (by norm_num))]
        rfl
      rw [hloc]
      simp only [Option.some_bind]
      have hlb2 : i % (30 * n.toNat) < lineages.length * n.toNat := by
        have h30 : lineages.length = 30 := by simp [lineages]
        rw [h30]
        exact Nat.mod_lt i hm2
      rw [flatMap_getElem?_const _ _ n.toNat
        (fun lin _ => inner1_length hz _ lin n) (i % (30 * n.toNat)) hlb2]
      have e3 : i % (30 * n.toNat) / n.toNat = i / n.toNat % 30 := by
        rw [mul_comm 30 n.toNat]
        exact Nat.mod_mul_right_div_self i n.toNat 30
      have e4 : i % (30 * n.toNat) % n.toNat = i % n.toNat :=
        Nat.mod_mod_of_dvd i ⟨30, by ring⟩
      rw [e3, e4]
      have hlin : lineages[i / n.toNat % 30]? = some (toString (i / n.toNat % 30)) := by
        simp only [lineages, List.getElem?_map]
        rw [List.getElem?_range (Nat.mod_lt _ (by norm_num))]
        rfl
      rw [hlin]
      simp only [Option.some_bind, sampleIds, List.getElem?_map]
      rw [List.getElem?_range (Nat.mod_lt i hN)]
      simp only [Option.map_some']
      rfl

/-- Witness for C5: row 31 of the concrete table `make_df('w', 1)`. -/
theorem claim_C5_row_order_witness :
    List.Sorted (· < ·) (horizons "w") ∧
    weekTable1.rows[31]? = ((horizons "w")[31 / (50 * (30 * (1 : ℤ).toNat))]?).map
      (fun hz =>
        ⟨nowcastNanos, hz, toString (31 / (30 * (1 : ℤ).toNat) % 50),
         toString (31 / (1 : ℤ).toNat % 30), "sample", 31 % (1 : ℤ).toNat,
         nowcastNanos + hz * (7 * nanosPerDay), rngZ 31⟩) :=
  claim_C5_row_order "w" (7 * nanosPerDay) unit_w 1 rngZ weekTable1
    (make_df_eq_ok rngZ "w" 1 (7 * nanosPerDay) unit_w) 31
    (by rw [show weekTable1.rows = tableRows (7 * nanosPerDay) rngZ "w" 1 from rfl,
          tableRows_length, horizons_length, if_neg (by decide)]
        norm_num)

lemma horizons_d_length : (horizons "d").length = 35 := by decide

lemma horizons_w_length : (horizons "w").length = 6 := by decide

/-- C8 (amended): the driver calls `make_df` exactly four times with the pairs
`('d',100)`, `('d',500)`, `('w',100)`, `('w',500)` and writes each resulting
table to its numbered parquet path `example1..example4`; it evaluates each
table's shape but discards it — no shape is printed or logged, so the trace
contains no report effect. -/
theorem claim_C8_driver :
    make_df rngZ "d" 100 = .ok exampleTable1 ∧
    make_df rngZ "d" 500 = .ok exampleTable2 ∧
    make_df rngZ "w" 100 = .ok exampleTable3 ∧
    make_df rngZ "w" 500 = .ok exampleTable4 ∧
    driverEffects rngZ = .ok driverWrites ∧
    exampleTable1.shape = (5250000, 8) ∧
    exampleTable2.shape = (26250000, 8) ∧
    exampleTable3.shape = (900000, 8) ∧
    exampleTable4.shape = (4500000, 8) ∧
    driverWrites.countP Effect.isReport = 0 := by
  refine ⟨make_df_eq_ok rngZ "d" 100 nanosPerDay unit_d,
          make_df_eq_ok rngZ "d" 500 nanosPerDay unit_d,
          make_df_eq_ok rngZ "w" 100 (7 * nanosPerDay) unit_w,
          make_df_eq_ok rngZ "w" 500 (7 * nanosPerDay) unit_w,
          rfl, ?_, ?_, ?_, ?_, rfl⟩
  · simp only [exampleTable1, Table.shape]
    rw [tableRows_length, horizons_d_length]
    decide
  · simp only [exampleTable2, Table.shape]
    rw [tableRows_length, horizons_d_length]
    decide
  · simp only [exampleTable3, Table.shape]
    rw [tableRows_length, horizons_w_length]
    decide
  · simp only [exampleTable4, Table.shape]
    rw [tableRows_length, horizons_w_length]
    decide

/-- C8 counterexample: the driver's effect trace contains no report of any
table's shape — the bare `df.shape` statements are evaluated and discarded, so
nothing observable reports the shapes. -/
theorem claim_C8_counterexample :
    ¬ ∃ (es : List (Effect Int)) (e : Effect Int),
        driverEffects rngZ = .ok es ∧ e ∈ es ∧ e.isReport = true := by
  rintro ⟨es, e, hes, hmem, hrep⟩
  have hd : driverEffects rngZ = .ok driverWrites := rfl
  rw [hd] at hes
  obtain rfl : es = driverWrites := (Except.ok.inj hes).symm
  simp only [driverWrites, List.mem_cons, List.not_mem_nil, or_false] at hmem
  rcases hmem with rfl | rfl | rfl | rfl <;> simp [Effect.isReport] at hrep
